import Mathlib

/-!
Verification of the skill auto-activation engine
(`.claude-library/hooks/scripts/skill_activator.py`).

The Python module scores each configured skill against a user prompt
(keyword substrings + regex intent patterns, case-insensitive) and against a
list of recently modified file paths (glob patterns translated to regexes by
string substitution), then ranks the matched skills by priority and truncates
to a configured cap.

The embedding below mirrors the source:
* Python `re` is modelled by a small regex AST with Brzozowski-derivative
  matching and a recursive-descent parser over the fragment of regex syntax
  the translated patterns and ordinary intent patterns use (literals, `.`,
  postfix `*`/`+`/`?`, character classes, groups, alternation, escapes).
  A parse failure models `re.error`.  `re.match` anchors at the start only
  (`rmatchHead`); `re.search` tries every start position (`rsearch`).
* Python `str.replace` is `pyReplace` (left-to-right, non-overlapping,
  replacements are not rescanned).
* Python float arithmetic on the confidence threshold is modelled exactly
  over `Rat`.
* Iteration over the Python set `prompt_matches | context_matches` is
  hash-order dependent in CPython; it is modelled by an explicit enumeration
  list `order` passed to `activateWith`.
-/

namespace SkillAct

/-- Regex abstract syntax: the fragment produced by the glob translation and
used by intent patterns.  `cls neg items` is a character class of ranges
(single characters are degenerate ranges), negated when `neg` is true. -/
inductive Regex where
  | emp
  | eps
  | chr (c : Char)
  | dot
  | cls (neg : Bool) (items : List (Char × Char))
  | alt (r1 r2 : Regex)
  | cat (r1 r2 : Regex)
  | star (r : Regex)
deriving DecidableEq

/-- Whether a regex accepts the empty string. -/
def nullable : Regex → Bool
  | .emp => false
  | .eps => true
  | .chr _ => false
  | .dot => false
  | .cls _ _ => false
  | .alt a b => nullable a || nullable b
  | .cat a b => nullable a && nullable b
  | .star _ => true

/-- Character-class membership, optionally case-insensitive. -/
def charInCls (ci : Bool) (c : Char) (items : List (Char × Char)) : Bool :=
  items.any (fun it =>
    (it.1 ≤ c && c ≤ it.2) ||
    (ci && ((it.1 ≤ c.toLower && c.toLower ≤ it.2) ||
            (it.1 ≤ c.toUpper && c.toUpper ≤ it.2))))

/-- Brzozowski derivative of a regex by one character; `ci` selects
case-insensitive comparison (Python `re.IGNORECASE`).  `.` matches any
character except a newline, as in Python `re` without `DOTALL`. -/
def rderiv (ci : Bool) : Regex → Char → Regex
  | .emp, _ => .emp
  | .eps, _ => .emp
  | .chr d, c =>
      if (if ci then d.toLower == c.toLower else d == c) then .eps else .emp
  | .dot, c => if c = '\n' then .emp else .eps
  | .cls neg items, c =>
      if (if neg then !(charInCls ci c items) else charInCls ci c items)
      then .eps else .emp
  | .alt a b, c => .alt (rderiv ci a c) (rderiv ci b c)
  | .cat a b, c =>
      if nullable a then .alt (.cat (rderiv ci a c) b) (rderiv ci b c)
      else .cat (rderiv ci a c) b
  | .star a, c => .cat (rderiv ci a c) (.star a)

/-- Whole-list regex match via iterated derivatives. -/
def rmatch (ci : Bool) (r : Regex) (s : List Char) : Bool :=
  nullable (s.foldl (rderiv ci) r)

/-- Python `re.match` semantics: the regex must match some initial segment
of the string (anchored at the start only). -/
def rmatchHead (ci : Bool) (r : Regex) (s : List Char) : Bool :=
  (List.range (s.length + 1)).any (fun n => rmatch ci r (s.take n))

/-- Python `re.search` semantics: a match may begin at any position. -/
def rsearch (ci : Bool) (r : Regex) (s : List Char) : Bool :=
  (List.range (s.length + 1)).any (fun i => rmatchHead ci r (s.drop i))

/-- Parse the body of a character class after `[` (and optional `^`),
accumulating ranges until the closing `]`.  An unterminated class is a
parse error, modelling `re.error`.  Fuel-indexed so that the definition
reduces in the kernel; each step consumes at least one character. -/
def parseItemsAux : Nat → List Char → List (Char × Char) →
    Option (List (Char × Char) × List Char)
  | 0, _, _ => none
  | _ + 1, [], _ => none
  | f + 1, s, acc =>
    match s with
    | ']' :: rest => some (acc.reverse, rest)
    | '\\' :: c :: rest => parseItemsAux f rest ((c, c) :: acc)
    | c :: '-' :: d :: rest =>
        if d = ']' then parseItemsAux f ('-' :: d :: rest) ((c, c) :: acc)
        else parseItemsAux f rest ((c, d) :: acc)
    | c :: rest => parseItemsAux f rest ((c, c) :: acc)
    | [] => none

/-- Parse a character class `[...]` or `[^...]` (the `[` already consumed). -/
def parseCls (s : List Char) : Option (Regex × List Char) :=
  match s with
  | '^' :: rest =>
      match parseItemsAux (rest.length + 1) rest [] with
      | some (items, rest2) => some (.cls true items, rest2)
      | none => none
  | _ =>
      match parseItemsAux (s.length + 1) s [] with
      | some (items, rest2) => some (.cls false items, rest2)
      | none => none

/-- Escaped atoms: the common shorthand classes, other escapes are literal. -/
def escRegex (c : Char) : Regex :=
  if c = 'd' then .cls false [('0', '9')]
  else if c = 'D' then .cls true [('0', '9')]
  else if c = 'w' then .cls false [('a', 'z'), ('A', 'Z'), ('0', '9'), ('_', '_')]
  else if c = 'W' then .cls true [('a', 'z'), ('A', 'Z'), ('0', '9'), ('_', '_')]
  else if c = 's' then .cls false [(' ', ' '), ('\t', '\t'), ('\n', '\n'), ('\r', '\r')]
  else if c = 'S' then .cls true [(' ', ' '), ('\t', '\t'), ('\n', '\n'), ('\r', '\r')]
  else .chr c

/-- Postfix repetition operators applied to an atom. -/
def parseReps (r : Regex) : List Char → Regex × List Char
  | '*' :: rest => parseReps (.star r) rest
  | '+' :: rest => parseReps (.cat r (.star r)) rest
  | '?' :: rest => parseReps (.alt r .eps) rest
  | s => (r, s)

mutual

/-- Alternation level of the regex grammar (fuel-indexed recursion). -/
def parseAlt : Nat → List Char → Option (Regex × List Char)
  | 0, _ => none
  | f + 1, s =>
    match parseSeq f s with
    | none => none
    | some (r, s1) =>
      match s1 with
      | '|' :: rest =>
        match parseAlt f rest with
        | none => none
        | some (r2, s2) => some (.alt r r2, s2)
      | _ => some (r, s1)

/-- Concatenation level: a sequence of factors, stopping at `)`/`|`/end. -/
def parseSeq : Nat → List Char → Option (Regex × List Char)
  | 0, _ => none
  | f + 1, s =>
    match s with
    | [] => some (.eps, [])
    | ')' :: _ => some (.eps, s)
    | '|' :: _ => some (.eps, s)
    | _ =>
      match parseFactor f s with
      | none => none
      | some (r, s1) =>
        match parseSeq f s1 with
        | none => none
        | some (r2, s2) => some (.cat r r2, s2)

/-- A factor is an atom followed by repetition suffixes. -/
def parseFactor : Nat → List Char → Option (Regex × List Char)
  | 0, _ => none
  | f + 1, s =>
    match parseAtom f s with
    | none => none
    | some (r, s1) => some (parseReps r s1)

/-- Atoms: groups, classes, `.`, escapes, and literal characters.  A bare
metacharacter with nothing to apply to is a parse error.  The anchors `^`
and `$` (outside character classes) are zero-width assertions in Python
`re` and lie outside the modeled fragment: a pattern containing one is
conservatively treated as failing to compile, hence never matching. -/
def parseAtom : Nat → List Char → Option (Regex × List Char)
  | 0, _ => none
  | f + 1, s =>
    match s with
    | '(' :: rest =>
      match parseAlt f rest with
      | none => none
      | some (r, s1) =>
        match s1 with
        | ')' :: rest2 => some (r, rest2)
        | _ => none
    | '[' :: rest => parseCls rest
    | '.' :: rest => some (.dot, rest)
    | '\\' :: c :: rest => some (escRegex c, rest)
    | c :: rest =>
      if c = ')' || c = '|' || c = '*' || c = '+' || c = '?' ||
         c = '(' || c = '[' || c = '\\' || c = '^' || c = '$' then none
      else some (.chr c, rest)
    | [] => none

end

/-- Compile a regex string, modelling `re.compile`; `none` models `re.error`.
The fuel bound is generous: each unit of fuel either consumes an input
character or descends one grammar level. -/
def parseRegex (s : String) : Option Regex :=
  match parseAlt (4 * s.length + 16) s.data with
  | some (r, []) => some r
  | _ => none

/-- Fuel-indexed core of Python `str.replace`: replace all non-overlapping
occurrences left to right; the replacement text is not rescanned.  Each step
consumes at least one input character (the patterns used are non-empty), so
fuel equal to the input length is always sufficient. -/
def pyReplaceAux : Nat → List Char → List Char → List Char → List Char
  | 0, s, _, _ => s
  | _ + 1, [], _, _ => []
  | f + 1, c :: rest, pat, rep =>
    if pat ≠ [] ∧ pat.isPrefixOf (c :: rest) then
      rep ++ pyReplaceAux f ((c :: rest).drop pat.length) pat rep
    else
      c :: pyReplaceAux f rest pat rep

/-- Python `str.replace` on character lists. -/
def pyReplace (s pat rep : List Char) : List Char :=
  pyReplaceAux s.length s pat rep

/-- Glob-to-regex translation from `analyze_file_context`:
`pattern.replace("**", ".*").replace("*", "[^/]*")` followed by rewriting
braces to groups and commas to alternation bars. -/
def glob2re (pattern : String) : String :=
  let s1 := pyReplace pattern.data ['*', '*'] ['.', '*']
  let s2 := pyReplace s1 ['*'] ('[' :: '^' :: '/' :: ']' :: '*' :: [])
  let s3 := pyReplace s2 [Char.ofNat 123] ['(']
  let s4 := pyReplace s3 [Char.ofNat 125] [')']
  let s5 := pyReplace s4 [','] ['|']
  ⟨s5⟩

/-- One (path, glob-pattern) test from `analyze_file_context`:
`re.match(regex_pattern, file_path)`, with `re.error` treated as no match. -/
def globPathHit (pat path : String) : Bool :=
  match parseRegex (glob2re pat) with
  | none => false
  | some r => rmatchHead false r path.data

/-- Prompt triggers of one skill (`promptTriggers`); an absent key behaves
as the empty list, as in the Python `.get(..., [])` reads. -/
structure PromptTriggers where
  keywords : List String := []
  intentPatterns : List String := []
deriving DecidableEq

/-- File triggers of one skill (`fileTriggers`). -/
structure FileTriggers where
  pathPatterns : List String := []
deriving DecidableEq

/-- One skill's configuration record; `priority` is `none` when the JSON
field is absent (`.get("priority", "medium")` supplies the default). -/
structure SkillConfig where
  promptTriggers : PromptTriggers := {}
  fileTriggers : FileTriggers := {}
  priority : Option String := none
deriving DecidableEq

/-- The `meta` block; `none` fields model absent JSON keys, read through
the Python defaults 0.6, 3 and True respectively. -/
structure MetaCfg where
  confidenceThreshold : Option Rat := none
  maxSimultaneousSkills : Option Nat := none
  autoActivationEnabled : Option Bool := none
deriving DecidableEq

/-- The whole rules file: the ordered skills mapping (Python dicts preserve
insertion order; an absent or empty `skills` key is the empty list) and the
`meta` block. -/
structure SkillRules where
  skills : List (String × SkillConfig) := []
  meta : MetaCfg := {}
deriving DecidableEq

/-- `skill_rules.get("meta", {}).get("confidenceThreshold", 0.6)`; the float
0.6 is modelled exactly as the rational 3/5. -/
def confidenceThresholdOf (rules : SkillRules) : Rat :=
  rules.meta.confidenceThreshold.getD (mkRat 3 5)

/-- Python substring containment `needle in hay` on character lists. -/
def listHasInfix (hay needle : List Char) : Bool :=
  (List.range (hay.length + 1)).any (fun i => needle.isPrefixOf (hay.drop i))

/-- `keyword.lower() in prompt_lower`: case-insensitive substring test. -/
def keywordHit (prompt kw : String) : Bool :=
  listHasInfix (prompt.data.map Char.toLower) (kw.data.map Char.toLower)

/-- `re.search(pattern, prompt, re.IGNORECASE)` with `re.error` treated as
no match (the `except re.error: continue` branch). -/
def patternHit (prompt pat : String) : Bool :=
  match parseRegex pat with
  | none => false
  | some r => rsearch true r prompt.data

/-- The score accumulation loop of `analyze_prompt`: one point per keyword
occurrence, two points per matching intent pattern. -/
def promptScore (prompt : String) (cfg : SkillConfig) : Nat :=
  let score := cfg.promptTriggers.keywords.foldl
    (fun sc kw => if keywordHit prompt kw then sc + 1 else sc) 0
  cfg.promptTriggers.intentPatterns.foldl
    (fun sc pat => if patternHit prompt pat then sc + 2 else sc) score

/-- `max_score = len(keywords) + len(patterns) * 2`. -/
def maxScore (cfg : SkillConfig) : Nat :=
  cfg.promptTriggers.keywords.length + cfg.promptTriggers.intentPatterns.length * 2

/-- `max_score > 0 and (score / max_score) >= threshold`, over exact
rational arithmetic: `mkRat score max_score` is the rational quotient
`score / max_score` (see the C1 theorem, which restates it with `/`). -/
def promptMatched (prompt : String) (th : Rat) (cfg : SkillConfig) : Bool :=
  let ms := maxScore cfg
  decide (0 < ms) && decide (th ≤ mkRat (promptScore prompt cfg) ms)

/-- `analyze_prompt`: the set of skill names clearing the confidence
threshold, represented in dict iteration (insertion) order. -/
def analyzePrompt (prompt : String) (rules : SkillRules) : List String :=
  (rules.skills.filter
    (fun sc => promptMatched prompt (confidenceThresholdOf rules) sc.2)).map
    (fun sc => sc.1)

/-- The inner loop of `analyze_file_context` over an externally supplied
modified-file list: any (path, pattern) pair matching activates the skill. -/
def fileContextMatched (files : List String) (cfg : SkillConfig) : Bool :=
  files.any (fun path =>
    cfg.fileTriggers.pathPatterns.any (fun pat => globPathHit pat path))

/-- `analyze_file_context` restricted to its pure core (the modified-file
list is produced externally by the git collaborator). -/
def analyzeFileContext (files : List String) (rules : SkillRules) : List String :=
  (rules.skills.filter (fun sc => fileContextMatched files sc.2)).map
    (fun sc => sc.1)

/-- `priority_order.get(skill_config.get("priority", "medium"), 1)`. -/
def priorityRankOf (cfg : SkillConfig) : Nat :=
  let p := cfg.priority.getD "medium"
  if p = "high" then 0 else if p = "medium" then 1
  else if p = "low" then 2 else 1

/-- Rank of a named skill, looked up in the rules mapping. -/
def rankOf (rules : SkillRules) (s : String) : Nat :=
  priorityRankOf ((rules.skills.lookup s).getD {})

/-- The sort key relation used by `prioritized.sort(key=lambda x: x[1])`. -/
def rankLe (a b : String × Nat) : Prop := a.2 ≤ b.2

instance : DecidableRel rankLe := fun a b => Nat.decLe a.2 b.2

instance : IsTotal (String × Nat) rankLe := ⟨fun a b => Nat.le_total a.2 b.2⟩

instance : IsTrans (String × Nat) rankLe := ⟨fun _ _ _ => Nat.le_trans⟩

/-- Reason string built for a retained skill: `" + ".join(reasons)`. -/
def reasonFor (s : String) (promptMatches contextMatches : List String) : String :=
  String.intercalate " + "
    ((if s ∈ promptMatches then ["Prompt keywords/patterns matched"] else []) ++
     (if s ∈ contextMatches then ["Modified files matched"] else []))

/-- The `main` pipeline of the activation engine, from the two early-return
guards through ranking, truncation and reason construction.  `order` is the
iteration order of the Python set `all_matches = prompt_matches |
context_matches`: CPython enumerates each member exactly once in a
hash-dependent order, so the engine is faithfully a function of any such
enumeration.  Python's stable `list.sort` is modelled by the stable
`List.insertionSort` on the rank key. -/
def activateWith (prompt : String) (files : List String) (rules : SkillRules)
    (order : List String) : List (String × String) :=
  if rules.skills.isEmpty then []
  else if !(rules.meta.autoActivationEnabled.getD true) then []
  else
    let promptMatches := analyzePrompt prompt rules
    let contextMatches := analyzeFileContext files rules
    let maxSkills := rules.meta.maxSimultaneousSkills.getD 3
    let prioritized := order.map (fun s => (s, rankOf rules s))
    let sorted := List.insertionSort rankLe prioritized
    let top := sorted.take maxSkills
    top.map (fun t => (t.1, reasonFor t.1 promptMatches contextMatches))

/-- Whole-string anchored matching.  Modelled from the spec: the spec's
Glob Translator contract says the whole path string must match end-to-end
(`re.fullmatch` semantics), which the source does not implement. -/
def specAnchoredGlobMatch (pat path : String) : Bool :=
  match parseRegex (glob2re pat) with
  | none => false
  | some r => rmatch false r path.data

example : globPathHit "a**b" "a/b" = true := by decide
example : globPathHit "a*b" "a/b" = false := by decide
example : glob2re "*" = "[^/]*" := by decide
example : glob2re "**" = ".[^/]*" := by decide
example : keywordHit "check VOIP quality" "voip" = true := by decide
example : patternHit "deploy now" "dep.oy" = true := by decide
example : patternHit "deploy now" "(" = false := by decide

/-- A skill triggered by a single keyword, with all other fields defaulted. -/
def kwSkill (kw : String) : SkillConfig :=
  { promptTriggers := { keywords := [kw], intentPatterns := [] } }

/-- Two equal-priority keyword skills, discovered in the order x then y. -/
def rulesXY : SkillRules :=
  { skills := [("x", kwSkill "x"), ("y", kwSkill "y")], meta := {} }

/-- A skill whose only intent pattern fails to compile (`re.error`). -/
def brokenCfg : SkillConfig :=
  { promptTriggers := { keywords := [], intentPatterns := ["("] } }

/-- A sibling skill with a valid keyword trigger. -/
def validCfg : SkillConfig := kwSkill "deploy"

/-- Rules pairing a malformed skill with a valid sibling. -/
def brokenRules : SkillRules :=
  { skills := [("a", brokenCfg), ("b", validCfg)], meta := {} }

example : analyzePrompt "x y" rulesXY = ["x", "y"] := by decide
example :
    activateWith "x y" [] rulesXY ["x", "y"] =
      [("x", "Prompt keywords/patterns matched"),
       ("y", "Prompt keywords/patterns matched")] := by decide
example :
    activateWith "x y" [] rulesXY ["y", "x"] =
      [("y", "Prompt keywords/patterns matched"),
       ("x", "Prompt keywords/patterns matched")] := by decide
example :
    activateWith "deploy the app" [] brokenRules ["b"] =
      [("b", "Prompt keywords/patterns matched")] := by decide
example : fileContextMatched ["src/app.test.ts"]
    { fileTriggers := { pathPatterns := ["**/*.test.*"] } } = true := by decide
example : fileContextMatched ["src/app.ts"]
    { fileTriggers := { pathPatterns := ["**/*.test.*"] } } = false := by decide

/-! Helper lemmas. -/

/-- A fold that adds `k` for every element satisfying `p` computes
`k` times the count of such elements. -/
theorem foldl_count {α : Type _} (p : α → Bool) (k : Nat) :
    ∀ (l : List α) (a : Nat),
      l.foldl (fun sc x => if p x then sc + k else sc) a = a + k * l.countP p
  | [], _ => by simp
  | x :: l, a => by
      rw [List.foldl_cons, List.countP_cons, foldl_count p k l]
      by_cases h : p x
      · simp only [h, if_true]
        ring
      · simp [h]

/-- A nullable regex always head-matches (the empty initial segment works). -/
theorem rmatchHead_of_nullable (ci : Bool) (r : Regex) (s : List Char)
    (h : nullable r = true) : rmatchHead ci r s = true := by
  unfold rmatchHead
  rw [List.any_eq_true]
  refine ⟨0, List.mem_range.mpr (Nat.succ_pos _), ?_⟩
  simpa [rmatch] using h

/-- Head matching (Python `re.match`) is closed under extending the subject
string: a match of an initial segment survives appending a suffix. -/
theorem rmatchHead_append (ci : Bool) (r : Regex) (s t : List Char)
    (h : rmatchHead ci r s = true) : rmatchHead ci r (s ++ t) = true := by
  unfold rmatchHead at h ⊢
  rw [List.any_eq_true] at h ⊢
  obtain ⟨n, hn, hm⟩ := h
  rw [List.mem_range] at hn
  refine ⟨n, List.mem_range.mpr ?_, ?_⟩
  · simp only [List.length_append]
    omega
  · rwa [List.take_append_of_le_length (by omega)]

/-! Claim theorems. -/

/-- C1: the prompt score is 1 point per case-insensitively occurring keyword
plus 2 points per intent pattern whose case-insensitive search succeeds;
`maxScore` is `count(keywords) + 2 * count(intentPatterns)`; the skill
matches via the prompt path exactly when `maxScore > 0` and
`score / maxScore ≥ confidenceThreshold`; and with no prompt triggers it
never matches via the prompt path. -/
theorem C1_prompt_scoring (prompt : String) (cfg : SkillConfig) (th : Rat) :
    promptScore prompt cfg
        = cfg.promptTriggers.keywords.countP (keywordHit prompt)
          + 2 * cfg.promptTriggers.intentPatterns.countP (patternHit prompt)
  ∧ maxScore cfg
        = cfg.promptTriggers.keywords.length
          + 2 * cfg.promptTriggers.intentPatterns.length
  ∧ (promptMatched prompt th cfg = true ↔
        0 < maxScore cfg ∧
          th ≤ (promptScore prompt cfg : Rat) / (maxScore cfg : Rat))
  ∧ (maxScore cfg = 0 → promptMatched prompt th cfg = false) := by
  have hb : mkRat (promptScore prompt cfg) (maxScore cfg)
      = (promptScore prompt cfg : Rat) / (maxScore cfg : Rat) := by
    rw [Rat.mkRat_eq_divInt, Rat.divInt_eq_div]
    push_cast
    rfl
  refine ⟨?_, ?_, ?_, ?_⟩
  · unfold promptScore
    rw [foldl_count, foldl_count]
    omega
  · unfold maxScore
    omega
  · simp only [promptMatched, Bool.and_eq_true, decide_eq_true_eq]
    rw [hb]
  · intro h
    simp [promptMatched, h]

/-- C1 witness: the spec's own test vector, keyword "voip" against
"check voip quality" at threshold 1/2. -/
theorem C1_prompt_scoring_witness :
    promptScore "check voip quality" (kwSkill "voip")
        = (kwSkill "voip").promptTriggers.keywords.countP
            (keywordHit "check voip quality")
          + 2 * (kwSkill "voip").promptTriggers.intentPatterns.countP
              (patternHit "check voip quality")
  ∧ maxScore (kwSkill "voip")
        = (kwSkill "voip").promptTriggers.keywords.length
          + 2 * (kwSkill "voip").promptTriggers.intentPatterns.length
  ∧ (promptMatched "check voip quality" (mkRat 1 2) (kwSkill "voip") = true ↔
        0 < maxScore (kwSkill "voip") ∧
          mkRat 1 2 ≤ (promptScore "check voip quality" (kwSkill "voip") : Rat)
            / (maxScore (kwSkill "voip") : Rat))
  ∧ (maxScore (kwSkill "voip") = 0 →
        promptMatched "check voip quality" (mkRat 1 2) (kwSkill "voip") = false) :=
  C1_prompt_scoring "check voip quality" (kwSkill "voip") (mkRat 1 2)

/-- C2 counterexample: a single `*` and `**` are not interchangeable.
The glob `a**b` (translated `a.[^/]*b`) matches the path `a/b`, while
`a*b` (translated `a[^/]*b`) does not — replacing `*` by `**` changes the
matcher. -/
theorem C2_counterexample :
    globPathHit "a**b" "a/b" = true ∧ globPathHit "a*b" "a/b" = false := by
  refine ⟨by decide, by decide⟩

/-- C2 amended: the translation maps a lone `*` to `[^/]*` (a run of
non-separator characters) and `**` to `.[^/]*` (one character that may be a
separator but, like Python's `.`, not a newline, followed by a run of
non-separator characters), because the second `replace` rewrites the `*`
inside the just-inserted `.*`.  The two wildcards are therefore not
interchangeable: as a whole pattern `*` matches every path, while `**`
fails on the empty path and on a path starting with a newline, yet matches
the one-character path `x`. -/
theorem C2_star_translation (path : String) :
    glob2re "*" = "[^/]*"
  ∧ glob2re "**" = ".[^/]*"
  ∧ globPathHit "*" path = true
  ∧ globPathHit "**" "" = false
  ∧ globPathHit "**" "\n" = false
  ∧ globPathHit "**" "x" = true := by
  have h1 : parseRegex (glob2re "*")
      = some (Regex.cat (Regex.star (Regex.cls true [('/', '/')])) Regex.eps) := by
    decide
  refine ⟨by decide, by decide, ?_, by decide, by decide, by decide⟩
  unfold globPathHit
  rw [h1]
  exact rmatchHead_of_nullable _ _ _ (by decide)

/-- C2 witness: the translation facts and the wildcard matchers evaluated,
with the universal `*` conjunct instantiated at the path `a/b`. -/
theorem C2_star_translation_witness :
    glob2re "*" = "[^/]*"
  ∧ glob2re "**" = ".[^/]*"
  ∧ globPathHit "*" "a/b" = true
  ∧ globPathHit "**" "" = false
  ∧ globPathHit "**" "\n" = false
  ∧ globPathHit "**" "x" = true :=
  C2_star_translation "a/b"

/-- C3 counterexample: matching is not anchored end-to-end.  The glob
`*.py` (translated `[^/]*.py`) matches only the proper prefix `foo.py` of
the path `foo.pyx` (the whole-string match fails), yet the engine reports
a match, because `re.match` anchors at the start only. -/
theorem C3_counterexample :
    globPathHit "*.py" "foo.pyx" = true
  ∧ specAnchoredGlobMatch "*.py" "foo.pyx" = false
  ∧ specAnchoredGlobMatch "*.py" "foo.py" = true := by
  refine ⟨by decide, by decide, by decide⟩

/-- C3 amended: the File-Context Scorer's match test is anchored at the
start only (`re.match`): the translated pattern must match some initial
segment of the path, not the whole path, so a pattern matching only a
proper prefix IS reported as a match — `*.py` is reported as matching
`foo.pyx`, and `*.py` matches every extension of `foo.py`, since the
initial-segment match of `foo.py` survives appending any suffix. -/
theorem C3_head_anchored (suffix : String) :
    globPathHit "*.py" "foo.pyx" = true
  ∧ globPathHit "*.py" "foo.py" = true
  ∧ globPathHit "*.py" ("foo.py" ++ suffix) = true := by
  refine ⟨by decide, by decide, ?_⟩
  unfold globPathHit
  cases hp : parseRegex (glob2re "*.py") with
  | none => exact absurd hp (by decide)
  | some r =>
      have hstart : rmatchHead false r "foo.py".data = true := by
        have hc : globPathHit "*.py" "foo.py" = true := by decide
        unfold globPathHit at hc
        rw [hp] at hc
        exact hc
      have hd : ("foo.py" ++ suffix).data = "foo.py".data ++ suffix.data := rfl
      show rmatchHead false r ("foo.py" ++ suffix).data = true
      rw [hd]
      exact rmatchHead_append _ _ _ _ hstart

/-- C3 witness: the amended facts with the suffix instantiated to `x`,
so the extension is the counterexample path `foo.pyx` itself. -/
theorem C3_head_anchored_witness :
    globPathHit "*.py" "foo.pyx" = true
  ∧ globPathHit "*.py" "foo.py" = true
  ∧ globPathHit "*.py" ("foo.py" ++ "x") = true :=
  C3_head_anchored "x"

/-- C4: the engine's output order on equal-priority candidates depends on
the iteration order of the Python set `all_matches`, which CPython
randomizes across processes; the two possible enumerations of the same
two-element match set produce different ActivationResults, so discovery
order is not guaranteed.  Discovery order here is `["x", "y"]` (the order
`analyze_prompt` finds them in the skills mapping). -/
theorem C4_set_order_dependence :
    analyzePrompt "x y" rulesXY = ["x", "y"]
  ∧ activateWith "x y" [] rulesXY ["x", "y"]
      = [("x", "Prompt keywords/patterns matched"),
         ("y", "Prompt keywords/patterns matched")]
  ∧ activateWith "x y" [] rulesXY ["y", "x"]
      = [("y", "Prompt keywords/patterns matched"),
         ("x", "Prompt keywords/patterns matched")] := by
  refine ⟨by decide, by decide, by decide⟩

/-- Every pair in the ranked, truncated, reason-decorated pipeline respects
the rank order; the second components produced by the ranking map are
exactly `rankOf`. -/
theorem pairwise_rank_pipeline (rules : SkillRules) (order : List String)
    (pm cm : List String) (n : Nat) :
    (((List.insertionSort rankLe
          (order.map (fun s => (s, rankOf rules s)))).take n).map
        (fun t => (t.1, reasonFor t.1 pm cm))).Pairwise
      (fun a b => rankOf rules a.1 ≤ rankOf rules b.1) := by
  have hs : (List.insertionSort rankLe
      (order.map (fun s => (s, rankOf rules s)))).Pairwise rankLe :=
    List.sorted_insertionSort rankLe _
  have hmem : ∀ x ∈ List.insertionSort rankLe
      (order.map (fun s => (s, rankOf rules s))), x.2 = rankOf rules x.1 := by
    intro x hx
    have hx2 := (List.perm_insertionSort rankLe
      (order.map (fun s => (s, rankOf rules s)))).mem_iff.mp hx
    obtain ⟨s, _, rfl⟩ := List.mem_map.mp hx2
    rfl
  have htake : ((List.insertionSort rankLe
      (order.map (fun s => (s, rankOf rules s)))).take n).Pairwise rankLe :=
    List.Pairwise.sublist (List.take_sublist n _) hs
  rw [List.pairwise_map]
  refine List.Pairwise.imp_of_mem ?_ htake
  intro a b ha hb hr
  have ha2 := hmem a ((List.take_sublist n _).subset ha)
  have hb2 := hmem b ((List.take_sublist n _).subset hb)
  show rankOf rules a.1 ≤ rankOf rules b.1
  rw [← ha2, ← hb2]
  exact hr

/-- C5: the ActivationResult is ordered by priority rank (high = 0 before
medium = 1 before low = 2), for every enumeration of the match set. -/
theorem C5_priority_sorted (prompt : String) (files : List String)
    (rules : SkillRules) (order : List String) :
    (activateWith prompt files rules order).Pairwise
      (fun a b => rankOf rules a.1 ≤ rankOf rules b.1) := by
  simp only [activateWith]
  split
  · exact List.Pairwise.nil
  split
  · exact List.Pairwise.nil
  exact pairwise_rank_pipeline rules order _ _ _

/-- C6: the ActivationResult never exceeds `maxSimultaneousSkills` entries
(default 3), and a configured value of 0 suppresses all activation. -/
theorem C6_length_cap (prompt : String) (files : List String)
    (rules : SkillRules) (order : List String) :
    (activateWith prompt files rules order).length
        ≤ rules.meta.maxSimultaneousSkills.getD 3
  ∧ (rules.meta.maxSimultaneousSkills = some 0 →
        activateWith prompt files rules order = []) := by
  constructor
  · simp only [activateWith]
    split
    · simp
    split
    · simp
    simp only [List.length_map]
    exact List.length_take_le _ _
  · intro h
    simp only [activateWith, h]
    split
    · rfl
    split
    · rfl
    simp

/-- C6 witness: the cap facts at the two-skill example (default cap 3). -/
theorem C6_length_cap_witness :
    (activateWith "x y" [] rulesXY ["x", "y"]).length
        ≤ rulesXY.meta.maxSimultaneousSkills.getD 3
  ∧ (rulesXY.meta.maxSimultaneousSkills = some 0 →
        activateWith "x y" [] rulesXY ["x", "y"] = []) :=
  C6_length_cap "x y" [] rulesXY ["x", "y"]

/-- C7: no skill identifier appears twice in the ActivationResult (the set
union of prompt and file-context matches enumerates each member once, so
`order` has no duplicates). -/
theorem C7_no_duplicates (prompt : String) (files : List String)
    (rules : SkillRules) (order : List String) (h : order.Nodup) :
    ((activateWith prompt files rules order).map Prod.fst).Nodup := by
  simp only [activateWith]
  split
  · simp
  split
  · simp
  have hfst : List.Perm ((List.insertionSort rankLe
      (order.map (fun s => (s, rankOf rules s)))).map Prod.fst) order := by
    refine ((List.perm_insertionSort _ _).map Prod.fst).trans ?_
    rw [List.map_map]
    have hid : (Prod.fst ∘ fun s : String => (s, rankOf rules s)) = id := by
      funext s
      rfl
    rw [hid, List.map_id]
  have hnodup : ((List.insertionSort rankLe
      (order.map (fun s => (s, rankOf rules s)))).map Prod.fst).Nodup :=
    (hfst.nodup_iff).mpr h
  rw [List.map_map]
  have hcomp : (Prod.fst ∘ fun t : String × Nat => (t.1, reasonFor t.1
      (analyzePrompt prompt rules) (analyzeFileContext files rules)))
      = Prod.fst := by
    funext t
    rfl
  rw [hcomp, List.map_take]
  exact List.Nodup.sublist (List.take_sublist _ _) hnodup

/-- C8: with auto-activation disabled, or with an empty or absent skills
mapping, the engine returns an empty ActivationResult. -/
theorem C8_disabled_or_empty (prompt : String) (files : List String)
    (rules : SkillRules) (order : List String)
    (h : rules.meta.autoActivationEnabled = some false ∨ rules.skills = []) :
    activateWith prompt files rules order = [] := by
  rcases h with h | h
  · simp [activateWith, h]
  · simp [activateWith, h]

/-- C8 witness: a disabled config and an empty config both yield the empty
result on a matching prompt. -/
theorem C8_disabled_or_empty_witness :
    activateWith "x y" [] { rulesXY with
        meta := { autoActivationEnabled := some false } } ["x", "y"] = []
  ∧ activateWith "x y" [] { skills := [], meta := {} } ["x", "y"] = [] :=
  ⟨C8_disabled_or_empty "x y" [] _ ["x", "y"] (Or.inl rfl),
   C8_disabled_or_empty "x y" [] _ ["x", "y"] (Or.inr rfl)⟩

/-- C7 witness: the two-skill example yields distinct identifiers. -/
theorem C7_no_duplicates_witness :
    ((activateWith "x y" [] rulesXY ["x", "y"]).map Prod.fst).Nodup :=
  C7_no_duplicates "x y" [] rulesXY ["x", "y"] (by decide)

/-- C9: a trigger entry that fails to compile is merely a non-match — the
scorers are total — and inserting a skill with malformed triggers anywhere
in the mapping leaves every differently-named sibling's match status in
both scorers unchanged; concretely, a broken skill `a` does not stop the
valid sibling `b` from matching and appearing in the result. -/
theorem C9_malformed_robust (prompt : String) (files : List String)
    (pre post : List (String × SkillConfig)) (bad : String × SkillConfig)
    (m : MetaCfg) (s : String) (badPat : String)
    (h1 : parseRegex badPat = none)
    (h2 : parseRegex (glob2re badPat) = none)
    (hs : s ≠ bad.1) :
    patternHit prompt badPat = false
  ∧ (∀ path : String, globPathHit badPat path = false)
  ∧ (s ∈ analyzePrompt prompt ⟨pre ++ bad :: post, m⟩ ↔
        s ∈ analyzePrompt prompt ⟨pre ++ post, m⟩)
  ∧ (s ∈ analyzeFileContext files ⟨pre ++ bad :: post, m⟩ ↔
        s ∈ analyzeFileContext files ⟨pre ++ post, m⟩)
  ∧ activateWith "deploy the app" [] brokenRules ["b"]
      = [("b", "Prompt keywords/patterns matched")] := by
  have key : ∀ (p : String × SkillConfig → Bool),
      (s ∈ ((pre ++ bad :: post).filter p).map (fun sc => sc.1) ↔
        s ∈ ((pre ++ post).filter p).map (fun sc => sc.1)) := by
    intro p
    simp only [List.mem_map, List.mem_filter, List.mem_append, List.mem_cons]
    constructor
    · rintro ⟨x, ⟨hx | hx | hx, hpx⟩, hx1⟩
      · exact ⟨x, ⟨Or.inl hx, hpx⟩, hx1⟩
      · subst hx
        exact absurd hx1.symm hs
      · exact ⟨x, ⟨Or.inr hx, hpx⟩, hx1⟩
    · rintro ⟨x, ⟨hx | hx, hpx⟩, hx1⟩
      · exact ⟨x, ⟨Or.inl hx, hpx⟩, hx1⟩
      · exact ⟨x, ⟨Or.inr (Or.inr hx), hpx⟩, hx1⟩
  refine ⟨?_, ?_, ?_, ?_, by decide⟩
  · unfold patternHit
    rw [h1]
  · intro path
    unfold globPathHit
    rw [h2]
  · exact key _
  · exact key _

/-- C9 witness: the broken/valid sibling pair at concrete inputs. -/
theorem C9_malformed_robust_witness :
    patternHit "deploy the app" "(" = false
  ∧ (∀ path : String, globPathHit "(" path = false)
  ∧ ("b" ∈ analyzePrompt "deploy the app"
        ⟨[] ++ ("a", brokenCfg) :: [("b", validCfg)], {}⟩ ↔
      "b" ∈ analyzePrompt "deploy the app" ⟨[] ++ [("b", validCfg)], {}⟩)
  ∧ ("b" ∈ analyzeFileContext []
        ⟨[] ++ ("a", brokenCfg) :: [("b", validCfg)], {}⟩ ↔
      "b" ∈ analyzeFileContext [] ⟨[] ++ [("b", validCfg)], {}⟩)
  ∧ activateWith "deploy the app" [] brokenRules ["b"]
      = [("b", "Prompt keywords/patterns matched")] :=
  C9_malformed_robust "deploy the app" [] [] [("b", validCfg)]
    ("a", brokenCfg) {} "b" "(" (by decide) (by decide) (by decide)

/-- The engine's output depends on a rules value only through the analyzers,
the rank function, the meta block, and skills-emptiness. -/
theorem activateWith_congr (prompt : String) (files : List String)
    (order : List String) (r1 r2 : SkillRules)
    (hP : analyzePrompt prompt r1 = analyzePrompt prompt r2)
    (hC : analyzeFileContext files r1 = analyzeFileContext files r2)
    (hR : ∀ t, rankOf r1 t = rankOf r2 t)
    (hM : r1.meta = r2.meta)
    (hE : r1.skills.isEmpty = r2.skills.isEmpty) :
    activateWith prompt files r1 order = activateWith prompt files r2 order := by
  have hRf : rankOf r1 = rankOf r2 := funext hR
  unfold activateWith
  rw [hM, hE, hP, hC, hRf]

/-- Ranking reads only the `priority` field, and both a missing field and an
unrecognized value fall back to rank 1 (the rank of "medium"). -/
theorem priorityRankOf_unknown (cfg : SkillConfig)
    (h : ∀ p, cfg.priority = some p → p ≠ "high" ∧ p ≠ "medium" ∧ p ≠ "low") :
    priorityRankOf cfg = 1 := by
  unfold priorityRankOf
  cases hp : cfg.priority with
  | none => rfl
  | some p =>
      obtain ⟨n1, n2, n3⟩ := h p hp
      simp only [Option.getD_some]
      rw [if_neg n1, if_neg n2, if_neg n3]

/-- C10: a matching skill with a missing `priority` field, or with any
priority string other than "high"/"medium"/"low", is ranked exactly as if
its priority were "medium": its rank is 1, and replacing its priority by
"medium" leaves the whole ActivationResult unchanged. -/
theorem C10_unknown_priority (prompt : String) (files : List String)
    (order : List String) (pre post : List (String × SkillConfig))
    (s : String) (cfg : SkillConfig) (m : MetaCfg)
    (h : ∀ p, cfg.priority = some p → p ≠ "high" ∧ p ≠ "medium" ∧ p ≠ "low") :
    priorityRankOf cfg = priorityRankOf { cfg with priority := some "medium" }
  ∧ activateWith prompt files ⟨pre ++ (s, cfg) :: post, m⟩ order
      = activateWith prompt files
          ⟨pre ++ (s, { cfg with priority := some "medium" }) :: post, m⟩
          order := by
  have hmed : priorityRankOf { cfg with priority := some "medium" } = 1 := by
    rfl
  have hrank : priorityRankOf cfg = 1 := priorityRankOf_unknown cfg h
  refine ⟨by rw [hrank, hmed], ?_⟩
  apply activateWith_congr
  · unfold analyzePrompt confidenceThresholdOf
    simp only [List.filter_append, List.filter_cons, List.map_append]
    have hcond : promptMatched prompt (m.confidenceThreshold.getD (mkRat 3 5))
        { cfg with priority := some "medium" }
        = promptMatched prompt (m.confidenceThreshold.getD (mkRat 3 5)) cfg := rfl
    rw [hcond]
    by_cases hc : promptMatched prompt
        (m.confidenceThreshold.getD (mkRat 3 5)) cfg = true
    · rw [if_pos hc, if_pos hc]
      rfl
    · rw [if_neg hc, if_neg hc]
  · unfold analyzeFileContext
    simp only [List.filter_append, List.filter_cons, List.map_append]
    have hcond : fileContextMatched files { cfg with priority := some "medium" }
        = fileContextMatched files cfg := rfl
    rw [hcond]
    by_cases hc : fileContextMatched files cfg = true
    · rw [if_pos hc, if_pos hc]
      rfl
    · rw [if_neg hc, if_neg hc]
  · intro t
    unfold rankOf
    induction pre with
    | nil =>
        simp only [List.nil_append, List.lookup]
        cases hst : (t == s) with
        | true =>
            show priorityRankOf cfg
                = priorityRankOf { cfg with priority := some "medium" }
            rw [hrank, hmed]
        | false => rfl
    | cons hd tl ih =>
        obtain ⟨k, v⟩ := hd
        simp only [List.cons_append, List.lookup]
        cases hkt : (t == k) with
        | true => rfl
        | false => exact ih
  · rfl
  · cases pre with
    | nil => rfl
    | cons a l => rfl

/-- C10 witness: a skill with the unrecognized priority "urgent" ranks 1
and the engine output matches the "medium" variant. -/
theorem C10_unknown_priority_witness :
    priorityRankOf { kwSkill "x" with priority := some "urgent" }
        = priorityRankOf { kwSkill "x" with priority := some "medium" }
  ∧ activateWith "x y" []
        ⟨[] ++ ("x", { kwSkill "x" with priority := some "urgent" }) ::
            [("y", kwSkill "y")], {}⟩ ["x", "y"]
      = activateWith "x y" []
          ⟨[] ++ ("x", { kwSkill "x" with priority := some "medium" }) ::
              [("y", kwSkill "y")], {}⟩ ["x", "y"] :=
  C10_unknown_priority "x y" [] ["x", "y"] [] [("y", kwSkill "y")] "x"
    { kwSkill "x" with priority := some "urgent" } {}
    (by
      intro p hp
      injection hp with hp2
      subst hp2
      refine ⟨by decide, by decide, by decide⟩)

end SkillAct
